import Mathlib

/-!
Shallow embedding of the Ben-Or consensus node in src/nodes/node.ts.

The node keeps a NodeState record, a message store keyed by (phase, round),
a polling quorum waiter, and a two-phase consensus loop.  JSON values that
arrive over the wire are modelled by the inductive type JVal (numbers as
rationals); the strict equality tests of the TypeScript code become
constructor equality on JVal.
-/

namespace BenOr

/-- A JSON value as it can appear in a field of an inbound request body.
JavaScript numbers are modelled as rationals. -/
inductive JVal where
  | num (q : ℚ)
  | str (s : String)
  | bool (b : Bool)
  | null
deriving DecidableEq, Repr

/-- Modelled from the spec: the Value type imported from src/types —
a consensus value 0, 1 or unknown. v0 and v1 are the numbers 0 and 1,
unk is the string value used for an unknown. -/
inductive Val where
  | v0
  | v1
  | unk
deriving DecidableEq, Repr

/-- Message phases in two-phase Ben-Or (node.ts line 16). -/
inductive Phase where
  | R
  | P
deriving DecidableEq, Repr

/-- The message shape as delivered to the /message endpoint (node.ts lines
19-24).  The handler casts the request body without validating the field
types, so every field is an arbitrary JSON value here. -/
structure RawMsg where
  senderId : JVal
  phase : JVal
  round : JVal
  value : JVal
deriving DecidableEq, Repr

/-- NodeState (node.ts lines 8-13): x is 0, 1, unknown or null; decided is a
boolean or null; k is a number or null.  null is modelled as none. -/
structure NodeState where
  killed : Bool
  x : Option Val
  decided : Option Bool
  k : Option Int
deriving DecidableEq, Repr

/-- The receivedMessages store (node.ts lines 51-54): messages keyed by
(phase, round), kept in arrival order.  Modelled as the arrival-ordered
list of (key, message) pairs. -/
abbrev Store := List ((Phase × ℚ) × RawMsg)

/-- The sequence of messages stored for a (phase, round) key, in arrival
order (the read receivedMessages[phase][round] or [], node.ts line 65). -/
def votesFor (st : Store) (p : Phase) (r : ℚ) : List RawMsg :=
  (st.filter (fun e => e.1 = (p, r))).map (fun e => e.2)

/-- Phase validation of the /message handler (node.ts line 120):
["R","P"].includes(phase) succeeds exactly on the strings "R" and "P". -/
def phaseOk (v : JVal) : Option Phase :=
  match v with
  | JVal.str "R" => some Phase.R
  | JVal.str "P" => some Phase.P
  | _ => none

/-- Round validation of the /message handler (node.ts line 120):
typeof round === "number" succeeds exactly on JSON numbers, with no
sign or integrality check. -/
def roundOk (v : JVal) : Option ℚ :=
  match v with
  | JVal.num q => some q
  | _ => none

/-- The /message endpoint (node.ts lines 117-130): reject with status 400
when the phase is not "R"/"P" or the round is not a number; otherwise push
the message onto the sequence for (phase, round) and answer 200. -/
def handleMessage (st : Store) (m : RawMsg) : Store × Nat :=
  match phaseOk m.phase, roundOk m.round with
  | some p, some r => (st ++ [((p, r), m)], 200)
  | _, _ => (st, 400)

/-- waitForMessages (node.ts lines 62-74): poll the store until the stored
sequence for (phase, round) has length at least N - F or the node is
killed, then resolve with that sequence.  Each element of snaps is the
(store, killed) pair observed by one execution of check(); the result also
records the killed flag observed at resolution time.  none means every
snapshot was still below quorum with killed false, i.e. the promise is
still pending. -/
def waitForMessages (N F : Nat) (phase : Phase) (round : ℚ) :
    List (Store × Bool) → Option (List RawMsg × Bool)
  | [] => none
  | (st, killed) :: rest =>
    if N - F ≤ (votesFor st phase round).length ∨ killed = true then
      some (votesFor st phase round, killed)
    else
      waitForMessages N F phase round rest

/-- Count of messages whose value field is strictly equal to the number q
(the tallies m.value === 0 and m.value === 1, node.ts lines 165-170 and
189-194). -/
def countVal : List RawMsg → ℚ → Nat
  | [], _ => 0
  | m :: ms, q => (if m.value = JVal.num q then 1 else 0) + countVal ms q

/-- The R-phase proposal sent in the P-broadcast (node.ts lines 164-181):
0 or 1 on a strict majority of R-phase votes, otherwise unknown.  It only
feeds the broadcast, never the local NodeState. -/
def rPhaseValue (N : Nat) (rMsgs : List RawMsg) : Val :=
  if N / 2 + 1 ≤ countVal rMsgs 0 then Val.v0
  else if N / 2 + 1 ≤ countVal rMsgs 1 then Val.v1
  else Val.unk

/-- The inputs one iteration of the consensus loop draws from its
environment: the two quorum results, the killed flag observed at each of
the two checkpoints (node.ts lines 162 and 186), and the outcome of
Math.random() < 0.5 (true picks 0). -/
structure RoundEnv where
  rMsgs : List RawMsg
  killedAfterR : Bool
  pMsgs : List RawMsg
  killedAfterP : Bool
  coin : Bool
deriving Repr

/-- One iteration of the while loop of runConsensus (node.ts lines
154-222) as a state transformer.  The two killed branches model the breaks
at lines 162 and 186 after /stop set the flag during an await; every
branch that reaches line 222 writes k = round + 1 with round = k ?? 0 from
line 154. -/
def stepRound (F : Nat) (s : NodeState) (env : RoundEnv) : NodeState :=
  if env.killedAfterR = true then { s with killed := true }
  else if env.killedAfterP = true then { s with killed := true }
  else if F + 1 ≤ countVal env.pMsgs 0 then
    { s with x := some Val.v0, decided := some true, k := some (s.k.getD 0 + 1) }
  else if F + 1 ≤ countVal env.pMsgs 1 then
    { s with x := some Val.v1, decided := some true, k := some (s.k.getD 0 + 1) }
  else if 0 < countVal env.pMsgs 0 then
    { s with x := some Val.v0, k := some (s.k.getD 0 + 1) }
  else if 0 < countVal env.pMsgs 1 then
    { s with x := some Val.v1, k := some (s.k.getD 0 + 1) }
  else
    { s with x := some (if env.coin then Val.v0 else Val.v1),
             k := some (s.k.getD 0 + 1) }

/-- The while loop of runConsensus (node.ts line 153): iterate stepRound
while decided is not true and killed is false; the environment list is the
schedule of quorum results, kill observations and coin flips, one entry
per potential iteration. -/
def runLoop (F : Nat) : NodeState → List RoundEnv → NodeState
  | s, [] => s
  | s, env :: rest =>
    if s.decided = some true ∨ s.killed = true then s
    else runLoop F (stepRound F s env) rest

/-- runConsensus (node.ts lines 149-153 plus the loop): return immediately
when faulty or already killed, otherwise run the loop. -/
def runConsensus (isFaulty : Bool) (F : Nat) (s : NodeState)
    (envs : List RoundEnv) : NodeState :=
  if isFaulty = true ∨ s.killed = true then s else runLoop F s envs

/-- The state a node is constructed with (node.ts lines 40-45):
faulty-dependent null initialisation. -/
def initState (isFaulty : Bool) (initialValue : Val) : NodeState :=
  { killed := false
    x := if isFaulty then none else some initialValue
    decided := if isFaulty then none else some false
    k := if isFaulty then none else some 0 }

/-- Whether one invocation of runConsensus reaches the loop body: the
early return at node.ts line 151 requires not faulty and not killed, and
the while condition at line 153 additionally requires decided not true
(null and false are both falsy).  Nothing here depends on whether another
invocation's loop is already running — NodeState has no such flag. -/
def entersConsensusLoop (isFaulty killed : Bool) (decided : Option Bool) : Bool :=
  !isFaulty && !killed && !(decided == some true)

/-- Effect of one GET /start request (node.ts lines 140-145): runConsensus
is invoked whenever the node is not faulty, and that invocation enters the
loop body iff entersConsensusLoop holds of the current state.  The handler
keeps no record of earlier start requests. -/
def startEntersLoop (isFaulty killed : Bool) (decided : Option Bool) : Bool :=
  !isFaulty && entersConsensusLoop isFaulty killed decided

/-! Concrete sample data used to evaluate the definitions. -/

/-- A P-phase message for round 0 carrying the numeric value q. -/
def msgPnum (sender q : ℚ) : RawMsg :=
  { senderId := JVal.num sender, phase := JVal.str "P",
    round := JVal.num 0, value := JVal.num q }

/-- A P-phase message for round 0 carrying the unknown value. -/
def msgPunk (sender : ℚ) : RawMsg :=
  { senderId := JVal.num sender, phase := JVal.str "P",
    round := JVal.num 0, value := JVal.str "?" }

/-- A non-faulty node in round 0, not yet decided. -/
def runningState : NodeState :=
  { killed := false, x := some Val.unk, decided := some false, k := some 0 }

/-- A round environment whose P-quorum holds two votes for 0 (enough to
decide with F = 1). -/
def envDecide0 : RoundEnv :=
  { rMsgs := [], killedAfterR := false, pMsgs := [msgPnum 0 0, msgPnum 1 0],
    killedAfterP := false, coin := true }

/-- A round environment whose P-quorum holds only unknown votes. -/
def envAllUnk : RoundEnv :=
  { rMsgs := [], killedAfterR := false, pMsgs := [msgPunk 0, msgPunk 1, msgPunk 2],
    killedAfterP := false, coin := true }

/-- A round environment with one vote for 0, one for 1 and one unknown:
below the decision threshold for F = 1 but not all unknown. -/
def envMixed : RoundEnv :=
  { rMsgs := [], killedAfterR := false, pMsgs := [msgPnum 0 0, msgPunk 1, msgPnum 2 1],
    killedAfterP := false, coin := true }

/-- An inbound message with a valid phase but round equal to the number -1. -/
def negRoundMsg : RawMsg :=
  { senderId := JVal.num 0, phase := JVal.str "R",
    round := JVal.num (-1), value := JVal.num 0 }

/-- An inbound message whose phase is the string "X". -/
def badPhaseMsg : RawMsg :=
  { senderId := JVal.num 0, phase := JVal.str "X",
    round := JVal.num 0, value := JVal.num 0 }

/-! Helper lemmas shared by the claim theorems. -/

/-- A list none of whose members carries the numeric value q tallies to
zero for q. -/
lemma countVal_eq_zero_of_no_num (l : List RawMsg) (q : ℚ)
    (h : ∀ m ∈ l, m.value ≠ JVal.num q) : countVal l q = 0 := by
  induction l with
  | nil => rfl
  | cons m ms ih =>
    rw [countVal, if_neg (h m (List.mem_cons_self m ms))]
    simpa using ih (fun m2 hm2 => h m2 (List.mem_cons_of_mem m hm2))

/-- The tally distributes over list concatenation: every stored copy of a
vote contributes. -/
lemma countVal_append (l1 l2 : List RawMsg) (q : ℚ) :
    countVal (l1 ++ l2) q = countVal l1 q + countVal l2 q := by
  induction l1 with
  | nil => simp [countVal]
  | cons m ms ih => simp [countVal, ih, Nat.add_assoc]

/-- Appending a message under key (p, r) extends the stored sequence for
(p, r) by exactly that message. -/
lemma votesFor_append_single (st : Store) (p : Phase) (r : ℚ) (m : RawMsg) :
    votesFor (st ++ [((p, r), m)]) p r = votesFor st p r ++ [m] := by
  simp [votesFor, List.filter_append]

/-- A valid message is handled by appending it under its (phase, round)
key with status 200. -/
lemma handleMessage_valid (st : Store) (m : RawMsg) (p : Phase) (r : ℚ)
    (hp : phaseOk m.phase = some p) (hr : roundOk m.round = some r) :
    handleMessage st m = (st ++ [((p, r), m)], 200) := by
  simp [handleMessage, hp, hr]

/-- Every non-kill branch of stepRound writes k = round + 1 with
round = k ?? 0 (node.ts lines 154 and 222). -/
lemma stepRound_k (F : Nat) (s : NodeState) (env : RoundEnv)
    (hR : env.killedAfterR = false) (hP : env.killedAfterP = false) :
    (stepRound F s env).k = some (s.k.getD 0 + 1) := by
  unfold stepRound
  rw [hR, hP, if_neg (by simp), if_neg (by simp)]
  split_ifs <;> rfl

/-- An already-decided state exits the while loop at once. -/
lemma runLoop_of_decided (F : Nat) (s : NodeState) (envs : List RoundEnv)
    (h : s.decided = some true) : runLoop F s envs = s := by
  cases envs with
  | nil => rfl
  | cons env rest => simp [runLoop, h]

/-- One iteration preserves the invariant that a decided state carries a
binary consensus value. -/
lemma stepRound_decided_binary (F : Nat) (s : NodeState) (env : RoundEnv)
    (h : s.decided = some true → s.x = some Val.v0 ∨ s.x = some Val.v1) :
    (stepRound F s env).decided = some true →
      (stepRound F s env).x = some Val.v0 ∨ (stepRound F s env).x = some Val.v1 := by
  unfold stepRound
  split_ifs with h1 h2 h3 h4 h5 h6 h7
  · exact fun hd => h hd
  · exact fun hd => h hd
  · exact fun _ => Or.inl rfl
  · exact fun _ => Or.inr rfl
  · exact fun _ => Or.inl rfl
  · exact fun _ => Or.inr rfl
  · exact fun _ => Or.inl rfl
  · exact fun _ => Or.inr rfl

/-- The while loop preserves the invariant that a decided state carries a
binary consensus value. -/
lemma runLoop_decided_binary (F : Nat) (envs : List RoundEnv) :
    ∀ s : NodeState, (s.decided = some true → s.x = some Val.v0 ∨ s.x = some Val.v1) →
      ((runLoop F s envs).decided = some true →
        (runLoop F s envs).x = some Val.v0 ∨ (runLoop F s envs).x = some Val.v1) := by
  induction envs with
  | nil => intro s h; simpa [runLoop] using h
  | cons env rest ih =>
    intro s h
    rw [runLoop]
    split_ifs with hstop
    · exact h
    · exact ih (stepRound F s env) (stepRound_decided_binary F s env h)

/-! The claim theorems. -/

/-- Claim C1: a running node whose iteration ends with decided = true
counted at least F + 1 P-phase votes carrying its decided value among the
votes returned for that round; consequently decided is never set when
neither tally reaches F + 1. -/
theorem C1_decision_threshold (F : Nat) (s : NodeState) (env : RoundEnv)
    (hnot : s.decided ≠ some true)
    (hdec : (stepRound F s env).decided = some true) :
    ((stepRound F s env).x = some Val.v0 ∧ F + 1 ≤ countVal env.pMsgs 0) ∨
    ((stepRound F s env).x = some Val.v1 ∧ F + 1 ≤ countVal env.pMsgs 1) := by
  unfold stepRound at hdec ⊢
  split_ifs at hdec ⊢ with h1 h2 h3 h4 h5 h6 h7 <;> simp_all

theorem C1_decision_threshold_witness :
    runningState.decided ≠ some true
    ∧ (stepRound 1 runningState envDecide0).decided = some true
    ∧ (((stepRound 1 runningState envDecide0).x = some Val.v0
          ∧ 1 + 1 ≤ countVal envDecide0.pMsgs 0) ∨
       ((stepRound 1 runningState envDecide0).x = some Val.v1
          ∧ 1 + 1 ≤ countVal envDecide0.pMsgs 1)) :=
  ⟨by decide, by decide,
    C1_decision_threshold 1 runningState envDecide0 (by decide) (by decide)⟩

/-- Claim C2 counterexample: a vote whose round is the number -1 — not a
non-negative integer — is accepted by the /message handler: the store is
mutated (the vote is appended under (R, -1)) and the reply is 200, where
the claim requires rejection with no mutation. -/
theorem C2_round_validation_counterexample :
    negRoundMsg.round = JVal.num (-1) ∧ (-1 : ℚ) < 0 ∧
    handleMessage [] negRoundMsg = ([((Phase.R, -1), negRoundMsg)], 200) := by
  refine ⟨rfl, by norm_num, ?_⟩
  decide

/-- Claim C2 as amended: the handler rejects with status 400 and no
mutation exactly when the phase is not the string "R" or "P" or the round
is not a number; any message with a valid phase and a numeric round —
negative and fractional rounds included — is appended to the sequence
keyed by (phase, round) with status 200. -/
theorem C2_round_validation (st : Store) (m m2 : RawMsg) (p : Phase) (r : ℚ)
    (hp : phaseOk m.phase = some p) (hr : roundOk m.round = some r)
    (hbad : phaseOk m2.phase = none ∨ roundOk m2.round = none) :
    handleMessage st m = (st ++ [((p, r), m)], 200)
    ∧ votesFor (handleMessage st m).1 p r = votesFor st p r ++ [m]
    ∧ handleMessage st m2 = (st, 400) := by
  refine ⟨handleMessage_valid st m p r hp hr, ?_, ?_⟩
  · rw [handleMessage_valid st m p r hp hr]
    exact votesFor_append_single st p r m
  · cases hph : phaseOk m2.phase <;> cases hro : roundOk m2.round <;>
      simp_all [handleMessage]

theorem C2_round_validation_witness :
    phaseOk negRoundMsg.phase = some Phase.R
    ∧ roundOk negRoundMsg.round = some (-1)
    ∧ (phaseOk badPhaseMsg.phase = none ∨ roundOk badPhaseMsg.round = none)
    ∧ (handleMessage [] negRoundMsg = ([((Phase.R, -1), negRoundMsg)], 200)
       ∧ votesFor (handleMessage [] negRoundMsg).1 Phase.R (-1)
           = votesFor [] Phase.R (-1) ++ [negRoundMsg]
       ∧ handleMessage [] badPhaseMsg = ([], 400)) :=
  ⟨by decide, by decide, Or.inl (by decide),
    C2_round_validation [] negRoundMsg badPhaseMsg Phase.R (-1)
      (by decide) (by decide) (Or.inl (by decide))⟩

/-- Claim C3 counterexample: a start request handled while the node is in
the running configuration (not faulty, not killed, not decided) always
enters the consensus loop; since neither the /start handler nor
runConsensus consults any record of an earlier start, a repeated start
request in that configuration enters a second concurrent loop. -/
theorem C3_start_counterexample :
    startEntersLoop false false (some false) = true := rfl

/-- Claim C3 as amended: every start request of a non-faulty, non-killed,
non-decided node enters the consensus loop — repeated requests included,
so starting is not idempotent while running; a start request is a no-op
only when the node is faulty, killed, or decided. -/
theorem C3_start_guard (f k : Bool) (d : Option Bool)
    (hf : f = false) (hk : k = false) (hd : d ≠ some true) :
    startEntersLoop f k d = true
    ∧ startEntersLoop true k d = false
    ∧ startEntersLoop f true d = false
    ∧ startEntersLoop f k (some true) = false := by
  subst hf
  subst hk
  have hb : d = none ∨ d = some false := by
    rcases d with _ | b
    · exact Or.inl rfl
    · cases b
      · exact Or.inr rfl
      · exact absurd rfl hd
  rcases hb with h | h <;> subst h <;> exact ⟨rfl, rfl, rfl, rfl⟩

theorem C3_start_guard_witness :
    startEntersLoop false false (some false) = true
    ∧ startEntersLoop true false (some false) = false
    ∧ startEntersLoop false true (some false) = false
    ∧ startEntersLoop false false (some true) = false :=
  C3_start_guard false false (some false) rfl rfl (by decide)

/-- Claim C4: whenever the quorum waiter resolves, the sequence it returns
holds at least N - F votes unless the killed flag was observed true at
resolution time; and a poll that observes killed = true resolves
immediately with exactly the votes currently stored for (phase, round). -/
theorem C4_awaitQuorum (N F : Nat) (phase : Phase) (round : ℚ)
    (snaps : List (Store × Bool)) (msgs : List RawMsg) (killedObs : Bool)
    (st : Store) (rest : List (Store × Bool))
    (h : waitForMessages N F phase round snaps = some (msgs, killedObs)) :
    (N - F ≤ msgs.length ∨ killedObs = true)
    ∧ waitForMessages N F phase round ((st, true) :: rest)
        = some (votesFor st phase round, true) := by
  constructor
  · induction snaps with
    | nil => simp [waitForMessages] at h
    | cons head tail ih =>
      obtain ⟨st0, k0⟩ := head
      rw [waitForMessages] at h
      split_ifs at h with hcond
      · obtain ⟨hm, hk⟩ := Prod.mk.injEq .. ▸ Option.some.injEq .. ▸ h
        subst hm
        subst hk
        exact hcond
      · exact ih h
  · simp [waitForMessages]

theorem C4_awaitQuorum_witness :
    waitForMessages 3 1 Phase.R 0 [([], true)] = some ([], true)
    ∧ ((3 - 1 ≤ ([] : List RawMsg).length ∨ true = true)
       ∧ waitForMessages 3 1 Phase.R 0 [(([] : Store), true)]
           = some (votesFor [] Phase.R 0, true)) :=
  ⟨by decide,
    C4_awaitQuorum 3 1 Phase.R 0 [([], true)] [] true [] [] (by decide)⟩

/-- Claim C5: a reachable final state with decided = true carries x equal
to 0 or 1, and from a decided state the loop never runs another
iteration, so x is never altered afterward. -/
theorem C5_decided_terminal (isFaulty : Bool) (F : Nat) (iv : Val)
    (envs envs2 : List RoundEnv)
    (hdec : (runConsensus isFaulty F (initState isFaulty iv) envs).decided = some true) :
    ((runConsensus isFaulty F (initState isFaulty iv) envs).x = some Val.v0
      ∨ (runConsensus isFaulty F (initState isFaulty iv) envs).x = some Val.v1)
    ∧ runLoop F (runConsensus isFaulty F (initState isFaulty iv) envs) envs2
        = runConsensus isFaulty F (initState isFaulty iv) envs := by
  constructor
  · unfold runConsensus at hdec ⊢
    split_ifs at hdec ⊢ with hg
    · exfalso
      unfold initState at hdec
      cases isFaulty <;> simp_all
    · exact runLoop_decided_binary F envs (initState isFaulty iv)
        (by unfold initState; cases isFaulty <;> simp) hdec
  · exact runLoop_of_decided F _ envs2 hdec

theorem C5_decided_terminal_witness :
    (runConsensus false 1 (initState false Val.unk) [envDecide0]).decided = some true
    ∧ (((runConsensus false 1 (initState false Val.unk) [envDecide0]).x = some Val.v0
         ∨ (runConsensus false 1 (initState false Val.unk) [envDecide0]).x = some Val.v1)
       ∧ runLoop 1 (runConsensus false 1 (initState false Val.unk) [envDecide0]) [envAllUnk]
           = runConsensus false 1 (initState false Val.unk) [envDecide0]) :=
  ⟨by decide, C5_decided_terminal false 1 Val.unk [envDecide0] [envAllUnk] (by decide)⟩

/-- Claim C6: every completed iteration of the loop (no kill observed at
either checkpoint) ends by writing k = round + 1 with round the value k
held at the top of the iteration (0 when null): the round number advances
by exactly one, never decreasing and never skipping. -/
theorem C6_round_increment (F : Nat) (s : NodeState) (env : RoundEnv)
    (hR : env.killedAfterR = false) (hP : env.killedAfterP = false) :
    (stepRound F s env).k = some (s.k.getD 0 + 1) :=
  stepRound_k F s env hR hP

theorem C6_round_increment_witness :
    envAllUnk.killedAfterR = false
    ∧ envAllUnk.killedAfterP = false
    ∧ (stepRound 1 runningState envAllUnk).k = some (runningState.k.getD 0 + 1) :=
  ⟨rfl, rfl, C6_round_increment 1 runningState envAllUnk rfl rfl⟩

/-- Claim C7: when every P-phase vote received for the round carries the
unknown value, the iteration leaves decided unchanged (no decision) and
adopts for x the value of the random draw, 0 on one outcome of the coin
and 1 on the other. -/
theorem C7_unknown_fallback (F : Nat) (s : NodeState) (env : RoundEnv)
    (hR : env.killedAfterR = false) (hP : env.killedAfterP = false)
    (hall : ∀ m ∈ env.pMsgs, m.value = JVal.str "?") :
    (stepRound F s env).decided = s.decided
    ∧ (stepRound F s env).x = some (if env.coin then Val.v0 else Val.v1) := by
  have h0 : countVal env.pMsgs 0 = 0 :=
    countVal_eq_zero_of_no_num env.pMsgs 0 (fun m hm => by simp [hall m hm])
  have h1 : countVal env.pMsgs 1 = 0 :=
    countVal_eq_zero_of_no_num env.pMsgs 1 (fun m hm => by simp [hall m hm])
  unfold stepRound
  rw [hR, hP, if_neg (by simp), if_neg (by simp)]
  rw [h0, h1]
  norm_num

theorem C7_unknown_fallback_witness :
    envAllUnk.killedAfterR = false
    ∧ envAllUnk.killedAfterP = false
    ∧ (∀ m ∈ envAllUnk.pMsgs, m.value = JVal.str "?")
    ∧ ((stepRound 1 runningState envAllUnk).decided = runningState.decided
       ∧ (stepRound 1 runningState envAllUnk).x
           = some (if envAllUnk.coin then Val.v0 else Val.v1)) :=
  ⟨rfl, rfl, by decide,
    C7_unknown_fallback 1 runningState envAllUnk rfl rfl (by decide)⟩

/-- Claim C8: when the P-phase votes hold at least one vote for 0 or 1 but
fewer than F + 1 for either value, the iteration leaves decided unchanged
and adopts the fixed deterministic choice: 0 whenever any vote for 0 was
seen (even if votes for 1 are also present), otherwise 1. -/
theorem C8_partial_adoption (F : Nat) (s : NodeState) (env : RoundEnv)
    (hR : env.killedAfterR = false) (hP : env.killedAfterP = false)
    (h0 : countVal env.pMsgs 0 < F + 1) (h1 : countVal env.pMsgs 1 < F + 1)
    (hsome : 0 < countVal env.pMsgs 0 + countVal env.pMsgs 1) :
    (stepRound F s env).decided = s.decided
    ∧ (stepRound F s env).x
        = some (if 0 < countVal env.pMsgs 0 then Val.v0 else Val.v1) := by
  have hnot0 : ¬ (F + 1 ≤ countVal env.pMsgs 0) := by omega
  have hnot1 : ¬ (F + 1 ≤ countVal env.pMsgs 1) := by omega
  unfold stepRound
  rw [hR, hP, if_neg (by simp), if_neg (by simp), if_neg hnot0, if_neg hnot1]
  by_cases hc0 : 0 < countVal env.pMsgs 0
  · rw [if_pos hc0]
    exact ⟨rfl, by simp [hc0]⟩
  · have hc1 : 0 < countVal env.pMsgs 1 := by omega
    rw [if_neg hc0, if_pos hc1]
    exact ⟨rfl, by simp [hc0]⟩

theorem C8_partial_adoption_witness :
    envMixed.killedAfterR = false
    ∧ envMixed.killedAfterP = false
    ∧ countVal envMixed.pMsgs 0 < 1 + 1
    ∧ countVal envMixed.pMsgs 1 < 1 + 1
    ∧ 0 < countVal envMixed.pMsgs 0 + countVal envMixed.pMsgs 1
    ∧ ((stepRound 1 runningState envMixed).decided = runningState.decided
       ∧ (stepRound 1 runningState envMixed).x
           = some (if 0 < countVal envMixed.pMsgs 0 then Val.v0 else Val.v1)) :=
  ⟨rfl, rfl, by decide, by decide, by decide,
    C8_partial_adoption 1 runningState envMixed rfl rfl
      (by decide) (by decide) (by decide)⟩

/-- Claim C9: the store performs no deduplication by sender — delivering
the same vote twice appends two copies under its (phase, round) key, and
the tally counts both copies. -/
theorem C9_no_dedup (st : Store) (m : RawMsg) (p : Phase) (r : ℚ) (q : ℚ)
    (hp : phaseOk m.phase = some p) (hr : roundOk m.round = some r) :
    votesFor (handleMessage (handleMessage st m).1 m).1 p r
        = votesFor st p r ++ [m, m]
    ∧ countVal (votesFor (handleMessage (handleMessage st m).1 m).1 p r) q
        = countVal (votesFor st p r) q + countVal [m, m] q := by
  have key : votesFor (handleMessage (handleMessage st m).1 m).1 p r
      = votesFor st p r ++ [m, m] := by
    rw [handleMessage_valid st m p r hp hr]
    rw [handleMessage_valid (st ++ [((p, r), m)]) m p r hp hr]
    show votesFor ((st ++ [((p, r), m)]) ++ [((p, r), m)]) p r = votesFor st p r ++ [m, m]
    rw [votesFor_append_single (st ++ [((p, r), m)]) p r m,
        votesFor_append_single st p r m, List.append_assoc]
    rfl
  exact ⟨key, by rw [key, countVal_append]⟩

theorem C9_no_dedup_witness :
    phaseOk (msgPnum 0 0).phase = some Phase.P
    ∧ roundOk (msgPnum 0 0).round = some 0
    ∧ (votesFor (handleMessage (handleMessage [] (msgPnum 0 0)).1 (msgPnum 0 0)).1 Phase.P 0
         = votesFor [] Phase.P 0 ++ [msgPnum 0 0, msgPnum 0 0]
       ∧ countVal (votesFor (handleMessage (handleMessage [] (msgPnum 0 0)).1 (msgPnum 0 0)).1 Phase.P 0) 0
           = countVal (votesFor [] Phase.P 0) 0 + countVal [msgPnum 0 0, msgPnum 0 0] 0) :=
  ⟨by decide, by decide,
    C9_no_dedup [] (msgPnum 0 0) Phase.P 0 0 (by decide) (by decide)⟩

/-- Claim C10: an iteration whose P-tally reaches the decision threshold
still executes the round advance after setting decided = true, so the
state it leaves behind has k = round + 1; and the loop runs no further
iteration from that state, so the decided node's final reported round is
one greater than the round whose votes produced the decision. -/
theorem C10_decide_advances_round (F : Nat) (s : NodeState) (env : RoundEnv)
    (envs : List RoundEnv)
    (hR : env.killedAfterR = false) (hP : env.killedAfterP = false)
    (hdec : F + 1 ≤ countVal env.pMsgs 0 ∨ F + 1 ≤ countVal env.pMsgs 1) :
    (stepRound F s env).decided = some true
    ∧ (stepRound F s env).k = some (s.k.getD 0 + 1)
    ∧ runLoop F (stepRound F s env) envs = stepRound F s env := by
  have hd : (stepRound F s env).decided = some true := by
    unfold stepRound
    rw [hR, hP, if_neg (by simp), if_neg (by simp)]
    by_cases h0 : F + 1 ≤ countVal env.pMsgs 0
    · rw [if_pos h0]
    · have h1 : F + 1 ≤ countVal env.pMsgs 1 := by
        rcases hdec with h | h
        · exact absurd h h0
        · exact h
      rw [if_neg h0, if_pos h1]
  exact ⟨hd, stepRound_k F s env hR hP, runLoop_of_decided F _ envs hd⟩

theorem C10_decide_advances_round_witness :
    envDecide0.killedAfterR = false
    ∧ envDecide0.killedAfterP = false
    ∧ (1 + 1 ≤ countVal envDecide0.pMsgs 0 ∨ 1 + 1 ≤ countVal envDecide0.pMsgs 1)
    ∧ ((stepRound 1 runningState envDecide0).decided = some true
       ∧ (stepRound 1 runningState envDecide0).k = some (runningState.k.getD 0 + 1)
       ∧ runLoop 1 (stepRound 1 runningState envDecide0) [envAllUnk]
           = stepRound 1 runningState envDecide0) :=
  ⟨rfl, rfl, Or.inl (by decide),
    C10_decide_advances_round 1 runningState envDecide0 [envAllUnk] rfl rfl
      (Or.inl (by decide))⟩

end BenOr
